import Mathlib

/-!
Verification development for the myorm entity-metadata resolution engine.

The data model and operations below are a shallow embedding of the
TypeScript sources:
  src/metadata/entity-metadata.ts                       (EntityMetadata)
  src/metadata-builder/entity-metadata-builder.ts       (EntityMetadataBuilder)
  src/metadata/metadata-builder/entity-metadata-builder.ts (getInheritanceList)
  src/connection/connection.ts                          (findMetadata, getMetadata)

JavaScript values are modelled flatly: an entity object is an association
list from property names to primitive values.  No claim exercises nested
(embedded) value maps, so object fields hold primitives only.  Column,
relation, relation-id and relation-count metadata objects live in arenas
(lists indexed by natural numbers); two collections holding the same index
model two references to the same JavaScript object, so that object identity
and shared mutation are expressible.

Helper classes that the sources import but that are absent from the
repository snapshot (ColumnMetadata, OrmUtils, MetadataArgsStorage,
MetadataUtils, computeEntityMetadataStep2) are modelled from the
specification; each such definition carries a doc comment saying so.
-/

/-- A primitive JavaScript value: null, undefined, a boolean, a number or
a string. -/
inductive JSPrim where
  | nullV
  | undefinedV
  | boolV (b : Bool)
  | numV (n : Int)
  | strV (s : String)
deriving DecidableEq

/-- A flat JavaScript object literal: an association list from property
names to primitive values. -/
abbrev JSObj := List (String × JSPrim)

/-- A JavaScript value as it is passed around by the metadata operations:
either a primitive or a (flat) object literal. -/
inductive JSValue where
  | prim (p : JSPrim)
  | obj (o : JSObj)
deriving DecidableEq

/-- A JavaScript class, carrying its name and its superclass chain.  A
prototype chain is finite and acyclic, which the inductive structure
reflects.  The inheritance resolver walks this structure exactly as the
source walks Object.getPrototypeOf. -/
inductive JClass where
  | base (name : String)
  | derived (name : String) (parent : JClass)
deriving DecidableEq, Inhabited

/-- The name of a class (the JavaScript Function.name). -/
def JClass.name : JClass → String
  | .base n => n
  | .derived n _ => n

/-- Object.getPrototypeOf on a class: the direct superclass, if any.  For a
base class the prototype is Function.prototype, whose name is empty; the
walk below treats that as the stopping point. -/
def JClass.getPrototypeOf : JClass → Option JClass
  | .base _ => none
  | .derived _ p => some p

/-- The inner recursion of getInheritanceList: push the prototype while it
exists and has a nonempty name, then continue from it. -/
def EntityMetadataBuilder.protoWalk : JClass → List JClass
  | .base _ => []
  | .derived _ p =>
      if p.name = "" then [] else p :: EntityMetadataBuilder.protoWalk p

/-- getInheritanceList from
src/metadata/metadata-builder/entity-metadata-builder.ts lines 11 to 22:
start from the entity itself and push every named prototype while walking
upward.  The same walk is what MetadataUtils.getInheritanceTree (absent
from the snapshot) performs for the main builder. -/
def EntityMetadataBuilder.getInheritanceList (entity : JClass) : List JClass :=
  entity :: EntityMetadataBuilder.protoWalk entity

/-- Modelled from the spec: MetadataUtils.isInherited is absent from the
snapshot; per the spec a child link exists for every other entity whose
target is a strict subclass of the target at hand, so the test is strict
membership of the second class in the inheritance chain of the first. -/
def MetadataUtils.isInherited (target1 target2 : JClass) : Bool :=
  target1 != target2 && (EntityMetadataBuilder.getInheritanceList target1).contains target2

/-- Column metadata, restricted to the fields the claims exercise.  The
ColumnMetadata class itself is absent from the snapshot; the fields and
their defaults follow the spec data model (propertyName, isPrimary,
isNullable, isGenerated, generationStrategy). -/
structure ColumnMetadata where
  propertyName : String := ""
  isPrimary : Bool := false
  isNullable : Bool := false
  isGenerated : Bool := false
  generationStrategy : Option String := none
deriving DecidableEq, Inhabited

/-- Relation metadata, restricted to the property name. -/
structure RelationMetadata where
  propertyName : String := ""
deriving DecidableEq, Inhabited

/-- Relation-id metadata, restricted to the property name. -/
structure RelationIdMetadata where
  propertyName : String := ""
deriving DecidableEq, Inhabited

/-- Relation-count metadata, restricted to the property name. -/
structure RelationCountMetadata where
  propertyName : String := ""
deriving DecidableEq, Inhabited

/-- Embedded metadata: the owned columns and the columns flattened from the
whole embedded tree, as arena indices. -/
structure EmbeddedMetadata where
  columns : List Nat := []
  columnsFromTree : List Nat := []
deriving DecidableEq, Inhabited

/-- Reads a column out of the column arena; index = object identity. -/
def colAt (arena : List ColumnMetadata) (i : Nat) : ColumnMetadata :=
  arena.getD i default

/-- Reads a relation out of the relation arena. -/
def relAt (arena : List RelationMetadata) (i : Nat) : RelationMetadata :=
  arena.getD i default

/-- The table type of an entity metadata, restricted to the three types the
builder keeps (src/metadata-builder/entity-metadata-builder.ts line 31). -/
inductive TableType where
  | regular
  | closure
  | entityChild
deriving DecidableEq, Inhabited

/-- The target an entity metadata is bound to: a class, or a plain table
name for virtual tables. -/
inductive EntityTarget where
  | cls (c : JClass)
  | tableStr (s : String)
deriving DecidableEq, Inhabited

/-- Does this entity target denote exactly the given class? -/
def EntityTarget.sameClass : EntityTarget → JClass → Bool
  | .cls c, c2 => c == c2
  | .tableStr _, _ => false

/-- The class name of a target ((target as any).name in the source); a
string target has no name property, which reads as the empty string here. -/
def EntityTarget.className : EntityTarget → String
  | .cls c => c.name
  | .tableStr _ => ""

/-- Entity metadata, restricted to the fields the claims exercise.  Columns
and relations are arena indices; the parent link and the child links are
indices into the metadata list built by the builder. -/
structure EntityMetadata where
  target : EntityTarget := .tableStr ""
  name : String := ""
  tableName : String := ""
  tablePath : String := ""
  tableType : TableType := .regular
  inheritanceTree : List JClass := []
  inheritancePattern : Option String := none
  discriminatorValue : String := ""
  parentIdx : Option Nat := none
  childIdxs : List Nat := []
  embeddeds : List EmbeddedMetadata := []
  ownColumns : List Nat := []
  ownRelations : List Nat := []
  relationIds : List Nat := []
  relationCounts : List Nat := []
  columns : List Nat := []
  relations : List Nat := []
  primaryColumns : List Nat := []
  hasMultiplePrimaryKeys : Bool := false
  hasUUIDGeneratedColumns : Bool := false
  propertiesMap : List (String × String) := []
deriving DecidableEq, Inhabited

/-- Modelled from the spec: ColumnMetadata.getEntityValue is absent from
the snapshot; the spec reads the value of the column off the entity by the
property name, a missing property reading as undefined. -/
def ColumnMetadata.getEntityValue (c : ColumnMetadata) (entity : JSObj) : JSPrim :=
  (entity.lookup c.propertyName).getD .undefinedV

/-- hasId from src/metadata/entity-metadata.ts lines 249 to 256: false for
a missing entity, else every primary column value must be neither null,
nor undefined, nor the empty string. -/
def EntityMetadata.hasId (em : EntityMetadata) (arena : List ColumnMetadata)
    (entity : Option JSObj) : Bool :=
  match entity with
  | none => false
  | some e =>
      em.primaryColumns.all fun cid =>
        let value := (colAt arena cid).getEntityValue e
        value != .nullV && value != .undefinedV && value != .strV ""

/-- hasAllPrimaryKeys from src/metadata/entity-metadata.ts lines 262 to
267: every primary column value must be neither null nor undefined; there
is no check on the entity itself and the empty string is allowed. -/
def EntityMetadata.hasAllPrimaryKeys (em : EntityMetadata)
    (arena : List ColumnMetadata) (entity : JSObj) : Bool :=
  em.primaryColumns.all fun cid =>
    let value := (colAt arena cid).getEntityValue entity
    value != .nullV && value != .undefinedV

/-- Modelled from the spec: ColumnMetadata.createValueMap is absent from
the snapshot; the spec wraps the scalar under the name of the column. -/
def ColumnMetadata.createValueMap (c : ColumnMetadata) (value : JSPrim) : JSObj :=
  [(c.propertyName, value)]

/-- The failures ensureEntityIdMap can raise: the typed
CannotCreateEntityIdMapError carrying the requested id, or the JavaScript
TypeError raised by reading createValueMap off primaryColumns[0] when no
primary column exists. -/
inductive EntityIdMapError where
  | cannotCreateEntityIdMap (id : JSValue)
  | undefinedPrimaryColumn
deriving DecidableEq

/-- ensureEntityIdMap from src/metadata/entity-metadata.ts lines 275 to
281: an object id is already an id map and is returned as is; a scalar id
raises the typed error when the entity has multiple primary keys and is
otherwise wrapped under the name of the first primary column. -/
def EntityMetadata.ensureEntityIdMap (em : EntityMetadata)
    (arena : List ColumnMetadata) (id : JSValue) : Except EntityIdMapError JSValue :=
  match id with
  | .obj _ => .ok id
  | .prim p =>
      if em.hasMultiplePrimaryKeys then .error (.cannotCreateEntityIdMap id)
      else
        match em.primaryColumns with
        | [] => .error .undefinedPrimaryColumn
        | cid :: _ => .ok (.obj ((colAt arena cid).createValueMap p))

/-- Replaces the binding of a key in an association list, appending it when
absent. -/
def assocSet {β : Type} : List (String × β) → String → β → List (String × β)
  | [], k, v => [(k, v)]
  | (k2, v2) :: rest, k, v =>
      if k2 = k then (k, v) :: rest else (k2, v2) :: assocSet rest k v

/-- Modelled from the spec: OrmUtils.mergeDeep is absent from the snapshot;
on the flat maps of this model a deep merge writes every field of the
addition into the map, and Object.assign (the isObjectId branch of
getValueMap) does the same, so the two branches coincide here. -/
def OrmUtils.mergeDeep (map addition : JSObj) : JSObj :=
  addition.foldl (fun m kv => assocSet m kv.1 kv.2) map

/-- Modelled from the spec: OrmUtils.deepCompare is absent from the
snapshot; the id maps it compares are built by getValueMap over the same
primary-column list, which fixes the key order, so deep equality is
structural equality here. -/
def OrmUtils.deepCompare (a b : JSObj) : Bool :=
  decide (a = b)

/-- Modelled from the spec: ColumnMetadata.getEntityValueMap is absent from
the snapshot; the per-column contribution is the value of the column under
its name, an undefined value reads as a missing contribution, and with
skipNulls a null value does too. -/
def ColumnMetadata.getEntityValueMap (c : ColumnMetadata) (skipNulls : Bool)
    (entity : JSObj) : Option JSObj :=
  let value := c.getEntityValue entity
  if value = .undefinedV then none
  else if skipNulls && value = .nullV then none
  else some [(c.propertyName, value)]

/-- getValueMap from src/metadata/entity-metadata.ts lines 462 to 478: fold
the per-column contributions into one map, failing as soon as the map or a
contribution is missing. -/
def EntityMetadata.getValueMap (entity : JSObj) (arena : List ColumnMetadata)
    (colIds : List Nat) (skipNulls : Bool) : Option JSObj :=
  colIds.foldl
    (fun map cid =>
      match map with
      | none => none
      | some m =>
          match (colAt arena cid).getEntityValueMap skipNulls entity with
          | none => none
          | some value => some (OrmUtils.mergeDeep m value))
    (some [])

/-- getEntityIdMap from src/metadata/entity-metadata.ts lines 289 to 293:
undefined for a missing entity, else the primary-column value map with
nulls skipped. -/
def EntityMetadata.getEntityIdMap (em : EntityMetadata)
    (arena : List ColumnMetadata) (entity : Option JSObj) : Option JSObj :=
  match entity with
  | none => none
  | some e => EntityMetadata.getValueMap e arena em.primaryColumns true

/-- compareIds from src/metadata/entity-metadata.ts lines 452 to 456: false
when either id map is missing, else the deep comparison. -/
def EntityMetadata.compareIds (firstId secondId : Option JSObj) : Bool :=
  match firstId, secondId with
  | some f, some s => OrmUtils.deepCompare f s
  | _, _ => false

/-- compareEntities from src/metadata/entity-metadata.ts lines 318 to 326:
false as soon as either entity lacks an id map, else the id comparison. -/
def EntityMetadata.compareEntities (em : EntityMetadata)
    (arena : List ColumnMetadata) (firstEntity secondEntity : Option JSObj) : Bool :=
  match em.getEntityIdMap arena firstEntity with
  | none => false
  | some firstEntityIdMap =>
      match em.getEntityIdMap arena secondEntity with
      | none => false
      | some secondEntityIdMap =>
          EntityMetadata.compareIds (some firstEntityIdMap) (some secondEntityIdMap)

/-- createPropertiesMap from src/metadata/entity-metadata.ts lines 542 to
547: merge the per-column and per-relation value maps of the property
paths; on this flat model a property path is the property name. -/
def EntityMetadata.createPropertiesMap (arena : List ColumnMetadata)
    (relArena : List RelationMetadata) (em : EntityMetadata) : List (String × String) :=
  let columnPart := em.columns.foldl
    (fun m cid => assocSet m (colAt arena cid).propertyName (colAt arena cid).propertyName) []
  em.relations.foldl
    (fun m rid => assocSet m (relAt relArena rid).propertyName (relAt relArena rid).propertyName)
    columnPart

/-- The derived-property recomputation performed by registerColumn,
src/metadata/entity-metadata.ts lines 521 to 529: columns are the own
columns followed by every embedded tree, primaryColumns filters them on
isPrimary, hasMultiplePrimaryKeys and hasUUIDGeneratedColumns are derived
counts, and propertiesMap is rebuilt. -/
def EntityMetadata.recomputeDerived (arena : List ColumnMetadata)
    (relArena : List RelationMetadata) (em : EntityMetadata) : EntityMetadata :=
  let columns := em.embeddeds.foldl (fun cs e => cs ++ e.columnsFromTree) em.ownColumns
  let primaryColumns := columns.filter fun cid => (colAt arena cid).isPrimary
  let em2 := { em with
    columns := columns
    primaryColumns := primaryColumns
    hasMultiplePrimaryKeys := decide (primaryColumns.length > 1)
    hasUUIDGeneratedColumns :=
      decide ((columns.filter fun cid =>
        (colAt arena cid).isGenerated
          || (colAt arena cid).generationStrategy == some "uuid").length > 0) }
  { em2 with propertiesMap := EntityMetadata.createPropertiesMap arena relArena em2 }

mutual

/-- The in-memory graph of one entity metadata with its child entity
metadatas, as the object references of the source form it: the children of
a node are the entity metadatas its childEntityMetadatas list points at. -/
inductive EMTree where
  | node (em : EntityMetadata) (children : EMForest)

/-- A list of child entity-metadata trees. -/
inductive EMForest where
  | nil
  | cons (hd : EMTree) (tl : EMForest)

end

mutual

/-- registerColumn from src/metadata/entity-metadata.ts lines 517 to 532:
return unchanged when the column is already an own column, else push it,
recompute the derived properties and register it on every child entity
metadata. -/
def EntityMetadata.registerColumn (arena : List ColumnMetadata)
    (relArena : List RelationMetadata) (column : Nat) : EMTree → EMTree
  | .node em children =>
      if em.ownColumns.contains column then .node em children
      else
        let em2 := EntityMetadata.recomputeDerived arena relArena
          { em with ownColumns := em.ownColumns ++ [column] }
        .node em2 (EntityMetadata.registerColumnChildren arena relArena column children)

/-- The childEntityMetadatas.forEach loop of registerColumn. -/
def EntityMetadata.registerColumnChildren (arena : List ColumnMetadata)
    (relArena : List RelationMetadata) (column : Nat) : EMForest → EMForest
  | .nil => .nil
  | .cons t ts =>
      .cons (EntityMetadata.registerColumn arena relArena column t)
        (EntityMetadata.registerColumnChildren arena relArena column ts)

end

/-- The entity metadata at the root of a tree. -/
def EMTree.rootMeta : EMTree → EntityMetadata
  | .node em _ => em

/-- The invariant of claim C1 on one entity metadata: primaryColumns is
exactly the isPrimary subset of columns, and hasMultiplePrimaryKeys says
whether more than one primary column exists. -/
def EntityMetadata.primaryInvariant (arena : List ColumnMetadata)
    (em : EntityMetadata) : Bool :=
  decide (em.primaryColumns = em.columns.filter fun cid => (colAt arena cid).isPrimary)
    && (em.hasMultiplePrimaryKeys == decide (em.primaryColumns.length > 1))

mutual

/-- The primary-column invariant at every node of a tree. -/
def primaryInvariantTree (arena : List ColumnMetadata) : EMTree → Bool
  | .node em children =>
      em.primaryInvariant arena && primaryInvariantForest arena children

/-- The primary-column invariant at every node of a forest. -/
def primaryInvariantForest (arena : List ColumnMetadata) : EMForest → Bool
  | .nil => true
  | .cons t ts => primaryInvariantTree arena t && primaryInvariantForest arena ts

end

mutual

/-- At every node, the own columns are contained in the resolved columns. -/
def ownSubsetColumnsTree : EMTree → Bool
  | .node em children =>
      decide (∀ x ∈ em.ownColumns, x ∈ em.columns) && ownSubsetColumnsForest children

/-- ownSubsetColumnsTree over a forest. -/
def ownSubsetColumnsForest : EMForest → Bool
  | .nil => true
  | .cons t ts => ownSubsetColumnsTree t && ownSubsetColumnsForest ts

end

mutual

/-- Every node of the tree has the column among its own columns. -/
def ownEverywhereTree (column : Nat) : EMTree → Bool
  | .node em children =>
      decide (column ∈ em.ownColumns) && ownEverywhereForest column children

/-- ownEverywhereTree over a forest. -/
def ownEverywhereForest (column : Nat) : EMForest → Bool
  | .nil => true
  | .cons t ts => ownEverywhereTree column t && ownEverywhereForest column ts

end

mutual

/-- Registration of a column is hereditary in the tree: wherever the column
is an own column, it is an own column of every descendant too.  This is the
reachability invariant registerColumn itself maintains by propagating to
every child. -/
def hereditaryTree (column : Nat) : EMTree → Bool
  | .node em children =>
      (!decide (column ∈ em.ownColumns) || ownEverywhereForest column children)
        && hereditaryForest column children

/-- hereditaryTree over a forest. -/
def hereditaryForest (column : Nat) : EMForest → Bool
  | .nil => true
  | .cons t ts => hereditaryTree column t && hereditaryForest column ts

end

mutual

/-- Every node of the tree has the column among its resolved columns. -/
def containsColumnTree (column : Nat) : EMTree → Bool
  | .node em children =>
      decide (column ∈ em.columns) && containsColumnForest column children

/-- containsColumnTree over a forest. -/
def containsColumnForest (column : Nat) : EMForest → Bool
  | .nil => true
  | .cons t ts => containsColumnTree column t && containsColumnForest column ts

end

/-- Table registration record (TableMetadataArgs), restricted to the fields
the builder reads; targets are classes in this model. -/
structure TableMetadataArgs where
  target : JClass
  type : TableType := .regular
deriving DecidableEq

/-- Inheritance registration record: the target carries the given
inheritance pattern (the source only knows the STI pattern). -/
structure InheritanceMetadataArgs where
  target : JClass
  pattern : String := "STI"
deriving DecidableEq

/-- Discriminator-value registration record. -/
structure DiscriminatorValueMetadataArgs where
  target : JClass
  value : String
deriving DecidableEq

/-- Column registration record, restricted to the options the claims
exercise. -/
structure ColumnMetadataArgs where
  target : JClass
  propertyName : String
  isPrimary : Bool := false
  isNullable : Bool := false
deriving DecidableEq

/-- Relation registration record. -/
structure RelationMetadataArgs where
  target : JClass
  propertyName : String
deriving DecidableEq

/-- Relation-id registration record. -/
structure RelationIdMetadataArgs where
  target : JClass
  propertyName : String
deriving DecidableEq

/-- Relation-count registration record. -/
structure RelationCountMetadataArgs where
  target : JClass
  propertyName : String
deriving DecidableEq

/-- Embedded registration record: the embedded columns it brings, one
level deep. -/
structure EmbeddedMetadataArgs where
  target : JClass
  columns : List ColumnMetadataArgs := []
deriving DecidableEq

/-- Modelled from the spec: MetadataArgsStorage is absent from the
snapshot; per the spec it is an append-only store of raw registration
records with filter-by-class-set queries and no resolution logic. -/
structure MetadataArgsStorage where
  tables : List TableMetadataArgs := []
  inheritances : List InheritanceMetadataArgs := []
  discriminators : List DiscriminatorValueMetadataArgs := []
  columns : List ColumnMetadataArgs := []
  relations : List RelationMetadataArgs := []
  relationIds : List RelationIdMetadataArgs := []
  relationCounts : List RelationCountMetadataArgs := []
  embeddeds : List EmbeddedMetadataArgs := []

/-- Modelled from the spec: filterColumns keeps the column registrations
whose owning class lies in the given inheritance tree. -/
def MetadataArgsStorage.filterColumns (s : MetadataArgsStorage)
    (tree : List JClass) : List ColumnMetadataArgs :=
  s.columns.filter fun a => tree.contains a.target

/-- Modelled from the spec: filterRelations, by class-set membership. -/
def MetadataArgsStorage.filterRelations (s : MetadataArgsStorage)
    (tree : List JClass) : List RelationMetadataArgs :=
  s.relations.filter fun a => tree.contains a.target

/-- Modelled from the spec: filterRelationIds, by class-set membership. -/
def MetadataArgsStorage.filterRelationIds (s : MetadataArgsStorage)
    (tree : List JClass) : List RelationIdMetadataArgs :=
  s.relationIds.filter fun a => tree.contains a.target

/-- Modelled from the spec: filterRelationCounts, by class-set
membership. -/
def MetadataArgsStorage.filterRelationCounts (s : MetadataArgsStorage)
    (tree : List JClass) : List RelationCountMetadataArgs :=
  s.relationCounts.filter fun a => tree.contains a.target

/-- Modelled from the spec: filterEmbeddeds, by class-set membership. -/
def MetadataArgsStorage.filterEmbeddeds (s : MetadataArgsStorage)
    (tree : List JClass) : List EmbeddedMetadataArgs :=
  s.embeddeds.filter fun a => tree.contains a.target

/-- Modelled from the spec: findInheritanceType returns the inheritance
registration of the given target, if any. -/
def MetadataArgsStorage.findInheritanceType (s : MetadataArgsStorage)
    (target : JClass) : Option InheritanceMetadataArgs :=
  s.inheritances.find? fun a => a.target == target

/-- Modelled from the spec: findDiscriminatorValue returns the
discriminator registration of the given target, if any. -/
def MetadataArgsStorage.findDiscriminatorValue (s : MetadataArgsStorage)
    (target : JClass) : Option DiscriminatorValueMetadataArgs :=
  s.discriminators.find? fun a => a.target == target

/-- Modelled from the spec: filterSingleTableChildren collects every other
registered table whose target is a strict subclass of the given target. -/
def MetadataArgsStorage.filterSingleTableChildren (s : MetadataArgsStorage)
    (target : JClass) : List TableMetadataArgs :=
  s.tables.filter fun t => MetadataUtils.isInherited t.target target

/-- Modelled from the spec: the ColumnMetadata constructor builds the
resolved column from the registration options. -/
def ColumnMetadata.ofArgs (args : ColumnMetadataArgs) : ColumnMetadata :=
  { propertyName := args.propertyName
    isPrimary := args.isPrimary
    isNullable := args.isNullable }

/-- The mutable state the builder threads through its passes: the object
arenas and the entity metadata list under construction. -/
structure BuildState where
  colArena : List ColumnMetadata := []
  relArena : List RelationMetadata := []
  relIdArena : List RelationIdMetadata := []
  relCntArena : List RelationCountMetadata := []
  entities : List EntityMetadata := []
deriving Inhabited

/-- createEntityMetadata from
src/metadata-builder/entity-metadata-builder.ts lines 106 to 133: take the
inheritance tree of the target and, for a single-table-inheritance root or
an entity child, append the targets of every single-table child so that
their registrations become visible to the first-pass filters. -/
def EntityMetadataBuilder.createEntityMetadata (storage : MetadataArgsStorage)
    (tableArgs : TableMetadataArgs) : EntityMetadata :=
  let inheritanceTree := EntityMetadataBuilder.getInheritanceList tableArgs.target
  let tableInheritance := storage.findInheritanceType tableArgs.target
  let inheritanceTree :=
    if (tableInheritance.map (·.pattern) == some "STI") || tableArgs.type == .entityChild then
      inheritanceTree ++ (storage.filterSingleTableChildren tableArgs.target).map (·.target)
    else inheritanceTree
  { target := .cls tableArgs.target
    tableType := tableArgs.type
    inheritanceTree := inheritanceTree
    inheritancePattern := tableInheritance.map (·.pattern) }

/-- computeParentEntityMetadata from
src/metadata-builder/entity-metadata-builder.ts lines 136 to 146: an entity
child links to the first metadata whose inheritance tree contains its
target and whose pattern is STI; the link is the index of that metadata. -/
def EntityMetadataBuilder.computeParentEntityMetadata
    (allEntityMetadatas : List EntityMetadata) (em : EntityMetadata) : EntityMetadata :=
  if em.tableType == .entityChild then
    { em with parentIdx := allEntityMetadatas.findIdx? fun other =>
        (match em.target with
         | .cls c => other.inheritanceTree.contains c
         | .tableStr _ => false)
          && other.inheritancePattern == some "STI" }
  else em

/-- The child-linking pass of build,
src/metadata-builder/entity-metadata-builder.ts lines 42 to 50: the
children of a metadata are all metadatas whose class target is inherited
from its class target; the links are indices. -/
def EntityMetadataBuilder.computeChildEntityMetadatas
    (allEntityMetadatas : List EntityMetadata) (i : Nat) : EntityMetadata :=
  let em := allEntityMetadatas.getD i default
  { em with childIdxs := (List.range allEntityMetadatas.length).filter fun j =>
      match em.target, (allEntityMetadatas.getD j default).target with
      | .cls p, .cls c => MetadataUtils.isInherited c p
      | _, _ => false }

/-- The own-column construction of computeEntityMetadataStep1,
src/metadata-builder/entity-metadata-builder.ts lines 174 to 190, for the
non-child branch: build a fresh column per filtered registration, forcing
it nullable when some entity-child metadata has the registration target as
its own target; returns the extended arena and the own column indices. -/
def EntityMetadataBuilder.buildOwnColumns (allEntityMetadatas : List EntityMetadata)
    (columnArgs : List ColumnMetadataArgs) (arena : List ColumnMetadata) :
    List ColumnMetadata × List Nat :=
  columnArgs.foldl
    (fun acc args =>
      let column := ColumnMetadata.ofArgs args
      let columnInSingleTableInheritedChild := allEntityMetadatas.find? fun other =>
        other.tableType == .entityChild && other.target.sameClass args.target
      let column :=
        if columnInSingleTableInheritedChild.isSome then { column with isNullable := true }
        else column
      (acc.1 ++ [column], acc.2 ++ [acc.1.length]))
    (arena, [])

/-- The reuse branch of the own-column construction for entity children,
src/metadata-builder/entity-metadata-builder.ts lines 176 to 179: look the
parent own column up by property name; the trailing getD models the
non-null assertion of the source (an out-of-arena index plays the
undefined it would produce). -/
def EntityMetadataBuilder.reuseParentColumns (parent : EntityMetadata)
    (columnArgs : List ColumnMetadataArgs) (arena : List ColumnMetadata) : List Nat :=
  columnArgs.map fun args =>
    (parent.ownColumns.find? fun cid =>
      (colAt arena cid).propertyName == args.propertyName).getD arena.length

/-- Modelled from the spec: createEmbeddedsRecursively is absent from the
snapshot; each embedded registration allocates one resolved column per
embedded column registration, and the flattened tree columns are those
same columns (one level deep here). -/
def EntityMetadataBuilder.createEmbeddeds (embeddedArgs : List EmbeddedMetadataArgs)
    (arena : List ColumnMetadata) : List ColumnMetadata × List EmbeddedMetadata :=
  embeddedArgs.foldl
    (fun acc reg =>
      let ids := (List.range reg.columns.length).map (· + acc.1.length)
      (acc.1 ++ reg.columns.map ColumnMetadata.ofArgs,
        acc.2 ++ [{ columns := ids, columnsFromTree := ids }]))
    (arena, [])

/-- Marks one arena column nullable in place. -/
def markColumnNullable (arena : List ColumnMetadata) (cid : Nat) : List ColumnMetadata :=
  arena.set cid { colAt arena cid with isNullable := true }

/-- The own-relation construction of computeEntityMetadataStep1 for the
non-child branch (src/metadata-builder/entity-metadata-builder.ts lines
192 to 200): one fresh relation per filtered registration. -/
def EntityMetadataBuilder.buildOwnRelations (relationArgs : List RelationMetadataArgs)
    (arena : List RelationMetadata) : List RelationMetadata × List Nat :=
  relationArgs.foldl
    (fun acc args => (acc.1 ++ [{ propertyName := args.propertyName }], acc.2 ++ [acc.1.length]))
    (arena, [])

/-- The relation-id construction for the non-child branch
(src/metadata-builder/entity-metadata-builder.ts lines 201 to 211). -/
def EntityMetadataBuilder.buildRelationIds (args : List RelationIdMetadataArgs)
    (arena : List RelationIdMetadata) : List RelationIdMetadata × List Nat :=
  args.foldl
    (fun acc a => (acc.1 ++ [{ propertyName := a.propertyName }], acc.2 ++ [acc.1.length]))
    (arena, [])

/-- The relation-count construction for the non-child branch
(src/metadata-builder/entity-metadata-builder.ts lines 212 to 222). -/
def EntityMetadataBuilder.buildRelationCounts (args : List RelationCountMetadataArgs)
    (arena : List RelationCountMetadata) : List RelationCountMetadata × List Nat :=
  args.foldl
    (fun acc a => (acc.1 ++ [{ propertyName := a.propertyName }], acc.2 ++ [acc.1.length]))
    (arena, [])

/-- The reuse branch for entity children over the relation arena
(src/metadata-builder/entity-metadata-builder.ts lines 194 to 197). -/
def EntityMetadataBuilder.reuseParentRelations (parent : EntityMetadata)
    (relationArgs : List RelationMetadataArgs) (arena : List RelationMetadata) : List Nat :=
  relationArgs.map fun args =>
    (parent.ownRelations.find? fun rid =>
      (relAt arena rid).propertyName == args.propertyName).getD arena.length

/-- The reuse branch for entity children over the relation-id arena
(src/metadata-builder/entity-metadata-builder.ts lines 205 to 208). -/
def EntityMetadataBuilder.reuseParentRelationIds (parent : EntityMetadata)
    (args : List RelationIdMetadataArgs) (arena : List RelationIdMetadata) : List Nat :=
  args.map fun a =>
    (parent.relationIds.find? fun rid =>
      (arena.getD rid default).propertyName == a.propertyName).getD arena.length

/-- The reuse branch for entity children over the relation-count arena
(src/metadata-builder/entity-metadata-builder.ts lines 216 to 219). -/
def EntityMetadataBuilder.reuseParentRelationCounts (parent : EntityMetadata)
    (args : List RelationCountMetadataArgs) (arena : List RelationCountMetadata) : List Nat :=
  args.map fun a =>
    (parent.relationCounts.find? fun rid =>
      (arena.getD rid default).propertyName == a.propertyName).getD arena.length

/-- computeEntityMetadataStep1 from
src/metadata-builder/entity-metadata-builder.ts lines 148 to 253, for the
metadata at index i: discriminator value, embeddeds (forced nullable under
STI), own columns (fresh, or reused from the parent for entity children;
fresh ones forced nullable when an entity child registered the same
target), own relations, relation ids and relation counts with the same
own-versus-reuse rule.  Indices, listeners, checks and uniques carry no
claim and are not modelled. -/
def EntityMetadataBuilder.computeEntityMetadataStep1 (storage : MetadataArgsStorage)
    (st : BuildState) (i : Nat) : BuildState :=
  let allEntityMetadatas := st.entities
  let em := st.entities.getD i default
  let discriminatorValue :=
    match storage.findDiscriminatorValue
        (match em.target with | .cls c => c | .tableStr _ => default) with
    | some d => d.value
    | none => em.target.className
  let embStep := EntityMetadataBuilder.createEmbeddeds
    (storage.filterEmbeddeds em.inheritanceTree) st.colArena
  let colArena := embStep.1
  let embeddeds := embStep.2
  let colArena :=
    if em.inheritancePattern == some "STI" then
      embeddeds.foldl (fun a e => e.columns.foldl markColumnNullable a) colArena
    else colArena
  let columnArgs := storage.filterColumns em.inheritanceTree
  let parent := st.entities.getD (em.parentIdx.getD st.entities.length) default
  let colStep :=
    if em.tableType == .entityChild then
      (colArena, EntityMetadataBuilder.reuseParentColumns parent columnArgs colArena)
    else
      EntityMetadataBuilder.buildOwnColumns allEntityMetadatas columnArgs colArena
  let relationArgs := storage.filterRelations em.inheritanceTree
  let relStep :=
    if em.tableType == .entityChild then
      (st.relArena, EntityMetadataBuilder.reuseParentRelations parent relationArgs st.relArena)
    else
      EntityMetadataBuilder.buildOwnRelations relationArgs st.relArena
  let relationIdArgs := storage.filterRelationIds em.inheritanceTree
  let relIdStep :=
    if em.tableType == .entityChild then
      (st.relIdArena,
        EntityMetadataBuilder.reuseParentRelationIds parent relationIdArgs st.relIdArena)
    else
      EntityMetadataBuilder.buildRelationIds relationIdArgs st.relIdArena
  let relationCountArgs := storage.filterRelationCounts em.inheritanceTree
  let relCntStep :=
    if em.tableType == .entityChild then
      (st.relCntArena,
        EntityMetadataBuilder.reuseParentRelationCounts parent relationCountArgs st.relCntArena)
    else
      EntityMetadataBuilder.buildRelationCounts relationCountArgs st.relCntArena
  let em := { em with
    discriminatorValue := discriminatorValue
    embeddeds := embeddeds
    ownColumns := colStep.2
    ownRelations := relStep.2
    relationIds := relIdStep.2
    relationCounts := relCntStep.2 }
  { st with
    colArena := colStep.1
    relArena := relStep.1
    relIdArena := relIdStep.1
    relCntArena := relCntStep.1
    entities := st.entities.set i em }

/-- Modelled from the spec: computeEntityMetadataStep2 is absent from the
snapshot; per the spec it recomputes columns (own plus flattened embeds),
primaryColumns, hasMultiplePrimaryKeys, hasUUIDGeneratedColumns and
propertiesMap — the same invalidation registerColumn performs — with the
relations resolving to the own relations (embedded relations are not
modelled). -/
def EntityMetadataBuilder.computeEntityMetadataStep2 (arena : List ColumnMetadata)
    (relArena : List RelationMetadata) (em : EntityMetadata) : EntityMetadata :=
  EntityMetadata.recomputeDerived arena relArena { em with relations := em.ownRelations }

/-- build from src/metadata-builder/entity-metadata-builder.ts lines 24 to
98: keep the regular, closure and entity-child tables, create their entity
metadatas, link parents then children, run computeEntityMetadataStep1 only
for the metadatas whose table type is not entity-child (lines 58 to 60),
then run step2 for every metadata.  The naming pass, inverse-relation
pass, index/unique/check builds and the late generated-column pass carry
no claim here and are not modelled. -/
def EntityMetadataBuilder.build (storage : MetadataArgsStorage) : BuildState :=
  let realTables := storage.tables.filter fun t =>
    t.type == .regular || t.type == .closure || t.type == .entityChild
  let entityMetadatas := realTables.map (EntityMetadataBuilder.createEntityMetadata storage)
  let entityMetadatas := entityMetadatas.map
    (EntityMetadataBuilder.computeParentEntityMetadata entityMetadatas)
  let entityMetadatas := (List.range entityMetadatas.length).map
    (EntityMetadataBuilder.computeChildEntityMetadatas entityMetadatas)
  let st : BuildState := { entities := entityMetadatas }
  let st := ((List.range entityMetadatas.length).filter fun i =>
      (entityMetadatas.getD i default).tableType != .entityChild).foldl
    (EntityMetadataBuilder.computeEntityMetadataStep1 storage) st
  let finalEntities := st.entities.map
    (EntityMetadataBuilder.computeEntityMetadataStep2 st.colArena st.relArena)
  { st with entities := finalEntities }

/-- A lookup target as getMetadata accepts it: an entity class, an entity
schema (matched by its name), or a string. -/
inductive FindTarget where
  | cls (c : JClass)
  | entitySchema (schemaName : String)
  | str (s : String)
deriving DecidableEq

/-- Does the stored entity target equal the lookup target by identity
(metadata.target === target)?  Only a class can equal a class and only a
string a string. -/
def metadataTargetEq : EntityTarget → FindTarget → Bool
  | .cls c, .cls c2 => c == c2
  | .tableStr s, .str s2 => s == s2
  | _, _ => false

/-- The body of the findMetadata search lambda
(src/connection/connection.ts lines 386 to 402): first match by target
identity; an entity schema matches by name; a string with a dot matches
the table path, a string without matches the name or the table name. -/
def findMetadataPredicate (target : FindTarget) (metadata : EntityMetadata) : Bool :=
  if metadataTargetEq metadata.target target then true
  else
    match target with
    | .entitySchema n => metadata.name == n
    | .str s =>
        if s.data.contains '.' then metadata.tablePath == s
        else metadata.name == s || metadata.tableName == s
    | .cls _ => false

/-- findMetadata from src/connection/connection.ts lines 385 to 403: the
first stored metadata the search predicate accepts. -/
def Connection.findMetadata (entityMetadatas : List EntityMetadata)
    (target : FindTarget) : Option EntityMetadata :=
  entityMetadatas.find? (findMetadataPredicate target)

/-- The typed failure of getMetadata, carrying the requested target
(EntityMetadataNotFoundError). -/
inductive ConnectionError where
  | entityMetadataNotFound (target : FindTarget)
deriving DecidableEq

/-- getMetadata from src/connection/connection.ts lines 260 to 267: the
found metadata, or the typed not-found failure carrying the target. -/
def Connection.getMetadata (entityMetadatas : List EntityMetadata)
    (target : FindTarget) : Except ConnectionError EntityMetadata :=
  match Connection.findMetadata entityMetadatas target with
  | some metadata => .ok metadata
  | none => .error (.entityMetadataNotFound target)

/-- The Unit class of the source example (Post extends ContentModel
extends Unit). -/
def unitClass : JClass := .base "Unit"

/-- The ContentModel class of the source example. -/
def contentModelClass : JClass := .derived "ContentModel" unitClass

/-- The Post class of the source example. -/
def postClass : JClass := .derived "Post" contentModelClass

/-- A concrete single-table-inheritance registration set: ContentModel is
the STI root (columns id and title), Post the entity child (column
authorId, one relation, one relation id, one relation count). -/
def stiStorage : MetadataArgsStorage :=
  { tables := [{ target := contentModelClass, type := .regular },
               { target := postClass, type := .entityChild }]
    inheritances := [{ target := contentModelClass }]
    columns := [{ target := contentModelClass, propertyName := "id", isPrimary := true },
                { target := contentModelClass, propertyName := "title" },
                { target := postClass, propertyName := "authorId" }]
    relations := [{ target := postClass, propertyName := "author" }]
    relationIds := [{ target := postClass, propertyName := "authorRef" }]
    relationCounts := [{ target := postClass, propertyName := "commentCount" }] }

/-- The build result over the concrete STI registration set. -/
def stiBuilt : BuildState := EntityMetadataBuilder.build stiStorage

/-- A two-column single-table-inheritance registration set with symbolic
column names and flags: the first column is registered on the STI root,
the second on the entity child. -/
def twoColumnStiStorage (p1 : String) (prim1 null1 : Bool) (p2 : String)
    (prim2 null2 : Bool) : MetadataArgsStorage :=
  { tables := [{ target := contentModelClass, type := .regular },
               { target := postClass, type := .entityChild }]
    inheritances := [{ target := contentModelClass }]
    columns := [{ target := contentModelClass, propertyName := p1,
                  isPrimary := prim1, isNullable := null1 },
                { target := postClass, propertyName := p2,
                  isPrimary := prim2, isNullable := null2 }] }

/-- The build result over the two-column STI registration set. -/
def twoColumnStiBuilt (p1 : String) (prim1 null1 : Bool) (p2 : String)
    (prim2 null2 : Bool) : BuildState :=
  EntityMetadataBuilder.build (twoColumnStiStorage p1 prim1 null1 p2 prim2 null2)

/-- A two-column arena used by the registerColumn witnesses: column 0 is
the primary id, column 1 an ordinary column. -/
def sampleArena : List ColumnMetadata :=
  [{ propertyName := "id", isPrimary := true }, { propertyName := "title" }]

/-- A two-node entity-metadata tree (one root, one child), both owning the
primary column only. -/
def sampleTree : EMTree :=
  .node { ownColumns := [0], columns := [0], primaryColumns := [0] }
    (.cons (.node { ownColumns := [0], columns := [0], primaryColumns := [0] } .nil) .nil)

/-- An entity metadata with one primary column named id, with its arena. -/
def arenaSingleId : List ColumnMetadata := [{ propertyName := "id", isPrimary := true }]

/-- The single-primary-key entity metadata over arenaSingleId. -/
def emSingleId : EntityMetadata := { primaryColumns := [0] }

/-- An arena with two primary columns. -/
def arenaDoubleId : List ColumnMetadata :=
  [{ propertyName := "a", isPrimary := true }, { propertyName := "b", isPrimary := true }]

/-- A composite-primary-key entity metadata over arenaDoubleId. -/
def emDoubleId : EntityMetadata := { primaryColumns := [0, 1], hasMultiplePrimaryKeys := true }

/-- An entity metadata with no primary column at all. -/
def emNoPrimary : EntityMetadata := {}

/-- A sample entity object whose primary key holds the empty string. -/
def emptyStringEntity : JSObj := [("id", .strV "")]

/-- A sample entity object with a numeric primary key. -/
def numberIdEntity : JSObj := [("id", .numV 1)]

/-- A string-targeted metadata whose target contains a dot while its table
path differs; built metadata can carry such a pair since the table path is
produced by the naming strategy while the string target is kept as
given. -/
def dottedTargetMeta : EntityMetadata :=
  { target := .tableStr "a.b", name := "n", tableName := "tn", tablePath := "tp" }

/-- A class-targeted metadata used by the lookup witness. -/
def userMetaSample : EntityMetadata :=
  { target := .cls (JClass.base "User"), name := "User", tableName := "user" }


/-- Recomputing the derived properties establishes the primary-column
invariant unconditionally. -/
theorem primaryInvariant_recomputeDerived (arena : List ColumnMetadata)
    (relArena : List RelationMetadata) (em : EntityMetadata) :
    (EntityMetadata.recomputeDerived arena relArena em).primaryInvariant arena = true := by
  simp [EntityMetadata.recomputeDerived, EntityMetadata.primaryInvariant]

/-- Membership in a fold of list appends, given membership in the seed. -/
theorem mem_foldl_append_embeddeds (x : Nat) (l : List EmbeddedMetadata)
    (acc : List Nat) (h : x ∈ acc) :
    x ∈ l.foldl (fun cs e => cs ++ e.columnsFromTree) acc := by
  induction l generalizing acc with
  | nil => exact h
  | cons e es ih => exact ih _ (List.mem_append_left _ h)

mutual

/-- registerColumn preserves the primary-column invariant at every node of
the entity-metadata tree. -/
theorem registerColumn_primaryInv_tree (arena : List ColumnMetadata)
    (relArena : List RelationMetadata) (column : Nat) (t : EMTree)
    (h : primaryInvariantTree arena t = true) :
    primaryInvariantTree arena (EntityMetadata.registerColumn arena relArena column t) = true := by
  cases t with
  | node em children =>
    by_cases hc : column ∈ em.ownColumns
    · simpa [EntityMetadata.registerColumn, hc] using h
    · simp only [primaryInvariantTree, Bool.and_eq_true] at h
      simp only [EntityMetadata.registerColumn, List.elem_eq_mem, decide_eq_true_eq, hc,
        if_false, primaryInvariantTree, Bool.and_eq_true]
      exact ⟨primaryInvariant_recomputeDerived arena relArena _,
        registerColumn_primaryInv_forest arena relArena column children h.2⟩

/-- registerColumn preserves the primary-column invariant on a forest. -/
theorem registerColumn_primaryInv_forest (arena : List ColumnMetadata)
    (relArena : List RelationMetadata) (column : Nat) (f : EMForest)
    (h : primaryInvariantForest arena f = true) :
    primaryInvariantForest arena
      (EntityMetadata.registerColumnChildren arena relArena column f) = true := by
  cases f with
  | nil => simp [EntityMetadata.registerColumnChildren, primaryInvariantForest]
  | cons t ts =>
    simp only [primaryInvariantForest, Bool.and_eq_true] at h
    simp only [EntityMetadata.registerColumnChildren, primaryInvariantForest, Bool.and_eq_true]
    exact ⟨registerColumn_primaryInv_tree arena relArena column t h.1,
      registerColumn_primaryInv_forest arena relArena column ts h.2⟩

end

/-- registerColumn returns with the tree unchanged when the column is
already an own column of the root (the indexOf early return). -/
theorem registerColumn_of_mem (arena : List ColumnMetadata)
    (relArena : List RelationMetadata) (column : Nat) (em : EntityMetadata)
    (children : EMForest) (h : column ∈ em.ownColumns) :
    EntityMetadata.registerColumn arena relArena column (.node em children)
      = .node em children := by
  simp [EntityMetadata.registerColumn, h]

mutual

/-- When a column is an own column everywhere and own columns sit inside
the resolved columns everywhere, the column is a resolved column
everywhere. -/
theorem containsColumn_of_ownEverywhere_tree (column : Nat) (t : EMTree)
    (hown : ownEverywhereTree column t = true)
    (hsub : ownSubsetColumnsTree t = true) :
    containsColumnTree column t = true := by
  cases t with
  | node em children =>
    simp only [ownEverywhereTree, ownSubsetColumnsTree, Bool.and_eq_true,
      decide_eq_true_eq] at hown hsub
    simp only [containsColumnTree, Bool.and_eq_true, decide_eq_true_eq]
    exact ⟨hsub.1 column hown.1,
      containsColumn_of_ownEverywhere_forest column children hown.2 hsub.2⟩

/-- containsColumn_of_ownEverywhere_tree over a forest. -/
theorem containsColumn_of_ownEverywhere_forest (column : Nat) (f : EMForest)
    (hown : ownEverywhereForest column f = true)
    (hsub : ownSubsetColumnsForest f = true) :
    containsColumnForest column f = true := by
  cases f with
  | nil => simp [containsColumnForest]
  | cons t ts =>
    simp only [ownEverywhereForest, ownSubsetColumnsForest, Bool.and_eq_true] at hown hsub
    simp only [containsColumnForest, Bool.and_eq_true]
    exact ⟨containsColumn_of_ownEverywhere_tree column t hown.1 hsub.1,
      containsColumn_of_ownEverywhere_forest column ts hown.2 hsub.2⟩

end

mutual

/-- After registerColumn, the registered column is a resolved column of
every node of the tree, as long as the tree satisfies the subset and the
hereditary invariants beforehand. -/
theorem registerColumn_contains_tree (arena : List ColumnMetadata)
    (relArena : List RelationMetadata) (column : Nat) (t : EMTree)
    (hsub : ownSubsetColumnsTree t = true)
    (hher : hereditaryTree column t = true) :
    containsColumnTree column (EntityMetadata.registerColumn arena relArena column t) = true := by
  cases t with
  | node em children =>
    simp only [ownSubsetColumnsTree, Bool.and_eq_true, decide_eq_true_eq] at hsub
    simp only [hereditaryTree, Bool.and_eq_true, Bool.or_eq_true, Bool.not_eq_true',
      decide_eq_false_iff_not, decide_eq_true_eq] at hher
    by_cases hc : column ∈ em.ownColumns
    · rw [registerColumn_of_mem arena relArena column em children hc]
      have hown : ownEverywhereTree column (.node em children) = true := by
        simp only [ownEverywhereTree, Bool.and_eq_true, decide_eq_true_eq]
        refine ⟨hc, ?_⟩
        rcases hher.1 with h1 | h1
        · exact absurd hc h1
        · exact h1
      have hsub2 : ownSubsetColumnsTree (.node em children) = true := by
        simp only [ownSubsetColumnsTree, Bool.and_eq_true, decide_eq_true_eq]
        exact hsub
      exact containsColumn_of_ownEverywhere_tree column _ hown hsub2
    · simp only [EntityMetadata.registerColumn, List.elem_eq_mem, decide_eq_true_eq, hc,
        if_false, containsColumnTree, Bool.and_eq_true, decide_eq_true_eq]
      constructor
      · show column ∈ (EntityMetadata.recomputeDerived arena relArena _).columns
        simp only [EntityMetadata.recomputeDerived]
        exact mem_foldl_append_embeddeds column _ _
          (List.mem_append_right _ (List.mem_singleton.mpr rfl))
      · exact registerColumn_contains_forest arena relArena column children hsub.2 hher.2

/-- registerColumn_contains_tree over a forest. -/
theorem registerColumn_contains_forest (arena : List ColumnMetadata)
    (relArena : List RelationMetadata) (column : Nat) (f : EMForest)
    (hsub : ownSubsetColumnsForest f = true)
    (hher : hereditaryForest column f = true) :
    containsColumnForest column
      (EntityMetadata.registerColumnChildren arena relArena column f) = true := by
  cases f with
  | nil => simp [EntityMetadata.registerColumnChildren, containsColumnForest]
  | cons t ts =>
    simp only [ownSubsetColumnsForest, hereditaryForest, Bool.and_eq_true] at hsub hher
    simp only [EntityMetadata.registerColumnChildren, containsColumnForest, Bool.and_eq_true]
    exact ⟨registerColumn_contains_tree arena relArena column t hsub.1 hher.1,
      registerColumn_contains_forest arena relArena column ts hsub.2 hher.2⟩

end

/-- After a fresh registration, the own columns of the root are the old own
columns with the new column appended. -/
theorem registerColumn_rootMeta_ownColumns (arena : List ColumnMetadata)
    (relArena : List RelationMetadata) (column : Nat) (em : EntityMetadata)
    (children : EMForest) (hc : column ∉ em.ownColumns) :
    (EntityMetadata.registerColumn arena relArena column (.node em children)).rootMeta.ownColumns
      = em.ownColumns ++ [column] := by
  simp [EntityMetadata.registerColumn, hc, EMTree.rootMeta, EntityMetadata.recomputeDerived]

/-- Claim C4: the inheritance resolver is documented (and specified) to
return the ancestor chain ordered root to leaf, [Unit, ContentModel,
Post]; the code walks the prototype chain starting from the entity itself
and therefore returns the chain ordered leaf to root, [Post, ContentModel,
Unit], contradicting its own doc comment. -/
theorem getInheritanceList_leaf_to_root :
    EntityMetadataBuilder.getInheritanceList postClass = [postClass, contentModelClass, unitClass]
    ∧ EntityMetadataBuilder.getInheritanceList postClass
        ≠ [unitClass, contentModelClass, postClass] := by
  decide

/-- Claim C3 (code-bug evidence): build runs computeEntityMetadataStep1
only for metadatas whose table type is not entity-child, so the Post
entity-child metadata keeps empty own columns, relations, relation ids and
relation counts — and empty resolved columns after step2 — although the
registry holds three column registrations and one relation registration
visible from its inheritance tree, and although the parent metadata owns
three columns the step1 reuse branches would have shared. -/
theorem build_skips_sti_child_step1 :
    ((stiBuilt.entities.getD 1 default).tableType = .entityChild
      ∧ (stiBuilt.entities.getD 1 default).ownColumns = []
      ∧ (stiBuilt.entities.getD 1 default).columns = []
      ∧ (stiBuilt.entities.getD 1 default).ownRelations = []
      ∧ (stiBuilt.entities.getD 1 default).relationIds = []
      ∧ (stiBuilt.entities.getD 1 default).relationCounts = [])
    ∧ (stiBuilt.entities.getD 0 default).ownColumns = [0, 1, 2]
    ∧ (MetadataArgsStorage.filterColumns stiStorage
        (stiBuilt.entities.getD 1 default).inheritanceTree).length = 3
    ∧ (MetadataArgsStorage.filterRelations stiStorage
        (stiBuilt.entities.getD 1 default).inheritanceTree).length = 1 := by
  decide

/-- Claim C2 (counterexample): in the concrete STI group, the title column
registered on the STI root resolves into the root metadata with isNullable
still false, and the entity-child metadata resolves to an empty columns
collection, so it is false that a column registered on the root appears in
every member with isNullable forced to true. -/
theorem sti_root_column_not_forced_nullable_cex :
    (stiBuilt.entities.getD 0 default).columns = [0, 1, 2]
    ∧ (colAt stiBuilt.colArena 1).propertyName = "title"
    ∧ (colAt stiBuilt.colArena 1).isNullable = false
    ∧ (colAt stiBuilt.colArena 2).propertyName = "authorId"
    ∧ (colAt stiBuilt.colArena 2).isNullable = true
    ∧ (stiBuilt.entities.getD 1 default).columns = [] := by
  decide

/-- Claim C2 (amended): in a single-table-inheritance group, a column
registered on the entity child is forced isNullable = true when it is
constructed into the root metadata, whatever its declared flags, while a
column registered on the root keeps its declared nullability; both resolve
into the root metadata columns, and the entity-child metadata (skipped by
the build passes) resolves to empty column collections. -/
theorem sti_forced_nullable_amended (p1 : String) (prim1 null1 : Bool)
    (p2 : String) (prim2 null2 : Bool) :
    (twoColumnStiBuilt p1 prim1 null1 p2 prim2 null2).colArena
        = [{ propertyName := p1, isPrimary := prim1, isNullable := null1 },
           { propertyName := p2, isPrimary := prim2, isNullable := true }]
    ∧ ((twoColumnStiBuilt p1 prim1 null1 p2 prim2 null2).entities.getD 0 default).ownColumns
        = [0, 1]
    ∧ ((twoColumnStiBuilt p1 prim1 null1 p2 prim2 null2).entities.getD 0 default).columns
        = [0, 1]
    ∧ ((twoColumnStiBuilt p1 prim1 null1 p2 prim2 null2).entities.getD 1 default).ownColumns
        = []
    ∧ ((twoColumnStiBuilt p1 prim1 null1 p2 prim2 null2).entities.getD 1 default).columns
        = [] := by
  exact ⟨rfl, rfl, rfl, rfl, rfl⟩

/-- Claim C10: with an empty primaryColumns list both universally
quantified primary-column checks are vacuous, so hasId holds for every
present entity object and hasAllPrimaryKeys for every entity object. -/
theorem hasId_vacuous_without_primary_columns (arena : List ColumnMetadata)
    (em : EntityMetadata) (h : em.primaryColumns = []) :
    (∀ o : JSObj, em.hasId arena (some o) = true)
    ∧ ∀ o : JSObj, em.hasAllPrimaryKeys arena o = true := by
  constructor
  · intro o
    simp [EntityMetadata.hasId, h]
  · intro o
    simp [EntityMetadata.hasAllPrimaryKeys, h]

/-- Witness for claim C10 at the entity metadata with no primary column. -/
theorem hasId_vacuous_without_primary_columns_witness :
    EntityMetadata.hasId emNoPrimary arenaSingleId (some numberIdEntity) = true
    ∧ EntityMetadata.hasAllPrimaryKeys emNoPrimary arenaSingleId emptyStringEntity = true :=
  ⟨(hasId_vacuous_without_primary_columns arenaSingleId emNoPrimary rfl).1 numberIdEntity,
   (hasId_vacuous_without_primary_columns arenaSingleId emNoPrimary rfl).2 emptyStringEntity⟩

/-- Claim C6: hasId holds on an object entity exactly when every primary
column value is neither null, undefined nor the empty string, and is false
on a missing entity; hasAllPrimaryKeys holds exactly when every primary
column value is neither null nor undefined; the two predicates differ on
an empty-string primary key. -/
theorem hasId_vs_hasAllPrimaryKeys (arena : List ColumnMetadata)
    (em : EntityMetadata) (o : JSObj) :
    (em.hasId arena (some o) = true ↔
      ∀ cid ∈ em.primaryColumns,
        (colAt arena cid).getEntityValue o ≠ .nullV
          ∧ (colAt arena cid).getEntityValue o ≠ .undefinedV
          ∧ (colAt arena cid).getEntityValue o ≠ .strV "")
    ∧ em.hasId arena none = false
    ∧ (em.hasAllPrimaryKeys arena o = true ↔
      ∀ cid ∈ em.primaryColumns,
        (colAt arena cid).getEntityValue o ≠ .nullV
          ∧ (colAt arena cid).getEntityValue o ≠ .undefinedV)
    ∧ (EntityMetadata.hasAllPrimaryKeys emSingleId arenaSingleId emptyStringEntity = true
        ∧ EntityMetadata.hasId emSingleId arenaSingleId (some emptyStringEntity) = false) := by
  refine ⟨?_, rfl, ?_, by decide⟩
  · simp [EntityMetadata.hasId, List.all_eq_true, bne_iff_ne, and_assoc]
  · simp [EntityMetadata.hasAllPrimaryKeys, List.all_eq_true, bne_iff_ne]

/-- Claim C5: ensureEntityIdMap returns an object id unchanged, raises the
typed CannotCreateEntityIdMapError for a scalar id on an entity with
multiple primary keys, and otherwise wraps the scalar under the name of
the single primary column; stated for an entity whose
hasMultiplePrimaryKeys flag is consistent with a nonempty primary-column
list. -/
theorem ensureEntityIdMap_spec (arena : List ColumnMetadata) (em : EntityMetadata)
    (hcons : em.hasMultiplePrimaryKeys = decide (em.primaryColumns.length > 1))
    (cid : Nat) (rest : List Nat) (hpk : em.primaryColumns = cid :: rest) :
    (∀ o : JSObj, em.ensureEntityIdMap arena (.obj o) = .ok (.obj o))
    ∧ (rest ≠ [] → ∀ p : JSPrim,
        em.ensureEntityIdMap arena (.prim p) = .error (.cannotCreateEntityIdMap (.prim p)))
    ∧ (rest = [] → ∀ p : JSPrim,
        em.ensureEntityIdMap arena (.prim p)
          = .ok (.obj [((colAt arena cid).propertyName, p)])) := by
  refine ⟨fun o => rfl, ?_, ?_⟩
  · intro hne p
    cases rest with
    | nil => exact absurd rfl hne
    | cons a as =>
      simp [EntityMetadata.ensureEntityIdMap, hcons, hpk]
  · intro he p
    subst he
    simp [EntityMetadata.ensureEntityIdMap, hcons, hpk, ColumnMetadata.createValueMap]

/-- Witness for claim C5: the single-key entity wraps a scalar id under
its primary column name; the composite-key entity raises the typed
error. -/
theorem ensureEntityIdMap_spec_witness :
    EntityMetadata.ensureEntityIdMap emSingleId arenaSingleId (.prim (.numV 7))
        = .ok (.obj [("id", .numV 7)])
    ∧ EntityMetadata.ensureEntityIdMap emDoubleId arenaDoubleId (.prim (.numV 7))
        = .error (.cannotCreateEntityIdMap (.prim (.numV 7))) := by
  constructor
  · exact (ensureEntityIdMap_spec arenaSingleId emSingleId (by decide) 0 [] rfl).2.2
      rfl (.numV 7)
  · exact (ensureEntityIdMap_spec arenaDoubleId emDoubleId (by decide) 0 [1] rfl).2.1
      (by decide) (.numV 7)

/-- The getValueMap fold yields a map from any seed when every column
contribution is present. -/
theorem foldl_valueMap_isSome (entity : JSObj) (arena : List ColumnMetadata)
    (colIds : List Nat)
    (h : ∀ cid ∈ colIds, (colAt arena cid).getEntityValueMap true entity ≠ none) :
    ∀ m0 : JSObj, ∃ m, colIds.foldl
      (fun map cid =>
        match map with
        | none => none
        | some m =>
            match (colAt arena cid).getEntityValueMap true entity with
            | none => none
            | some value => some (OrmUtils.mergeDeep m value))
      (some m0) = some m := by
  induction colIds with
  | nil => intro m0; exact ⟨m0, rfl⟩
  | cons c cs ih =>
    intro m0
    have hc := h c (List.mem_cons_self c cs)
    obtain ⟨v, hv⟩ := Option.ne_none_iff_exists'.mp hc
    rw [List.foldl_cons, hv]
    exact ih (fun cid hm => h cid (List.mem_cons_of_mem c hm)) _

/-- An entity that hasId accepts always yields an entity id map. -/
theorem getEntityIdMap_isSome_of_hasId (em : EntityMetadata)
    (arena : List ColumnMetadata) (o : JSObj)
    (h : em.hasId arena (some o) = true) :
    ∃ m, em.getEntityIdMap arena (some o) = some m := by
  simp only [EntityMetadata.getEntityIdMap, EntityMetadata.getValueMap]
  apply foldl_valueMap_isSome
  intro cid hmem
  simp only [EntityMetadata.hasId, List.all_eq_true] at h
  have hv := h cid hmem
  simp only [Bool.and_eq_true, bne_iff_ne] at hv
  simp [ColumnMetadata.getEntityValueMap, hv.1.1, hv.1.2]

/-- Claim C7: compareEntities is true exactly when both entities yield id
maps and those maps compare deep-equal; it is false (the total function
never fails) as soon as either id map is missing; and it is reflexive on
any entity that has an id. -/
theorem compareEntities_spec (arena : List ColumnMetadata) (em : EntityMetadata)
    (x y : Option JSObj) :
    (em.compareEntities arena x y = true ↔
      ∃ m1 m2, em.getEntityIdMap arena x = some m1 ∧ em.getEntityIdMap arena y = some m2
        ∧ OrmUtils.deepCompare m1 m2 = true)
    ∧ (em.getEntityIdMap arena x = none → em.compareEntities arena x y = false)
    ∧ (em.getEntityIdMap arena y = none → em.compareEntities arena x y = false)
    ∧ (em.hasId arena x = true → em.compareEntities arena x x = true) := by
  refine ⟨?_, ?_, ?_, ?_⟩
  · constructor
    · intro h
      cases hx : em.getEntityIdMap arena x with
      | none => simp [EntityMetadata.compareEntities, hx] at h
      | some m1 =>
        cases hy : em.getEntityIdMap arena y with
        | none => simp [EntityMetadata.compareEntities, hx, hy] at h
        | some m2 =>
          refine ⟨m1, m2, rfl, rfl, ?_⟩
          simpa [EntityMetadata.compareEntities, hx, hy, EntityMetadata.compareIds] using h
    · rintro ⟨m1, m2, h1, h2, h3⟩
      simp [EntityMetadata.compareEntities, h1, h2, EntityMetadata.compareIds, h3]
  · intro h
    simp [EntityMetadata.compareEntities, h]
  · intro h
    cases hx : em.getEntityIdMap arena x with
    | none => simp [EntityMetadata.compareEntities, hx]
    | some m1 => simp [EntityMetadata.compareEntities, hx, h]
  · intro h
    cases x with
    | none => simp [EntityMetadata.hasId] at h
    | some o =>
      obtain ⟨m, hm⟩ := getEntityIdMap_isSome_of_hasId em arena o h
      simp [EntityMetadata.compareEntities, hm, EntityMetadata.compareIds,
        OrmUtils.deepCompare]

/-- Witness for claim C7: the numeric-id entity compares equal to itself,
and a missing first entity compares false. -/
theorem compareEntities_spec_witness :
    EntityMetadata.compareEntities emSingleId arenaSingleId
        (some numberIdEntity) (some numberIdEntity) = true
    ∧ EntityMetadata.compareEntities emSingleId arenaSingleId none (some numberIdEntity)
        = false := by
  constructor
  · exact (compareEntities_spec arenaSingleId emSingleId
      (some numberIdEntity) (some numberIdEntity)).2.2.2 (by decide)
  · exact (compareEntities_spec arenaSingleId emSingleId
      none (some numberIdEntity)).2.1 rfl

/-- The identity test against a class lookup target holds exactly on the
equal class target. -/
theorem metadataTargetEq_cls (t : EntityTarget) (c : JClass) :
    metadataTargetEq t (.cls c) = true ↔ t = .cls c := by
  cases t with
  | cls c2 => simp [metadataTargetEq]
  | tableStr s => simp [metadataTargetEq]

/-- The identity test against a string lookup target holds exactly on the
equal string target. -/
theorem metadataTargetEq_str (t : EntityTarget) (s : String) :
    metadataTargetEq t (.str s) = true ↔ t = .tableStr s := by
  cases t with
  | cls c2 => simp [metadataTargetEq]
  | tableStr s2 => simp [metadataTargetEq]

/-- The find predicate of findMetadata for a class target, as a
proposition. -/
theorem findMetadata_pred_cls (m : EntityMetadata) (c : JClass) :
    findMetadataPredicate (.cls c) m = true ↔ m.target = .cls c := by
  by_cases h : metadataTargetEq m.target (.cls c) = true
  · simp [findMetadataPredicate, h, (metadataTargetEq_cls m.target c).mp h, metadataTargetEq]
  · simp only [findMetadataPredicate, h]
    simp only [Bool.false_eq_true] at h
    simp only [metadataTargetEq_cls m.target c] at h
    simp [h]

/-- The find predicate of findMetadata for a string target, as a
proposition: identity on a string target, or the table-path match when the
string has a dot, or the name-or-table-name match otherwise. -/
theorem findMetadata_pred_str (m : EntityMetadata) (s : String) :
    findMetadataPredicate (.str s) m = true ↔
      (m.target = .tableStr s
        ∨ (if s.data.contains '.' then m.tablePath = s
           else m.name = s ∨ m.tableName = s)) := by
  by_cases h : metadataTargetEq m.target (.str s) = true
  · simp [findMetadataPredicate, h, (metadataTargetEq_str m.target s).mp h, metadataTargetEq]
  · simp only [findMetadataPredicate, h]
    simp only [Bool.false_eq_true] at h
    simp only [metadataTargetEq_str m.target s] at h
    by_cases hd : s.data.contains '.' = true
    · simp [hd, h]
    · simp only [Bool.not_eq_true] at hd
      simp [hd, h]

/-- Eliminates a successful findMetadata into membership and the find
predicate. -/
theorem findMetadata_ok_elim (ems : List EntityMetadata) (t : FindTarget)
    (m : EntityMetadata) (h : Connection.findMetadata ems t = some m) :
    m ∈ ems ∧ findMetadataPredicate t m = true := by
  unfold Connection.findMetadata at h
  exact ⟨List.mem_of_find?_eq_some h, List.find?_some h⟩

/-- A findMetadata miss is exactly the failure of the find predicate on
every stored metadata. -/
theorem findMetadata_none_iff (ems : List EntityMetadata) (t : FindTarget) :
    Connection.findMetadata ems t = none ↔
      ∀ m ∈ ems, ¬ (findMetadataPredicate t m = true) := by
  unfold Connection.findMetadata
  exact List.find?_eq_none

/-- Claim C8 (amended): getMetadata resolves a class target exactly by
class identity, and a string target by string-target identity or by table
path when the string has a dot, or by name or table name otherwise; a miss
raises the typed not-found failure carrying the requested target, and the
failure happens exactly on a miss, never as a silent default. -/
theorem getMetadata_spec (ems : List EntityMetadata) :
    (∀ c m, Connection.getMetadata ems (.cls c) = .ok m → m ∈ ems ∧ m.target = .cls c)
    ∧ (∀ c, Connection.getMetadata ems (.cls c)
          = .error (.entityMetadataNotFound (.cls c)) ↔ ∀ m ∈ ems, m.target ≠ .cls c)
    ∧ (∀ s m, Connection.getMetadata ems (.str s) = .ok m → m ∈ ems
        ∧ (m.target = .tableStr s
            ∨ (if s.data.contains '.' then m.tablePath = s
               else m.name = s ∨ m.tableName = s)))
    ∧ (∀ s, Connection.getMetadata ems (.str s)
          = .error (.entityMetadataNotFound (.str s)) ↔
        ∀ m ∈ ems, ¬ (m.target = .tableStr s
            ∨ (if s.data.contains '.' then m.tablePath = s
               else m.name = s ∨ m.tableName = s))) := by
  refine ⟨?_, ?_, ?_, ?_⟩
  · intro c m h
    cases hf : Connection.findMetadata ems (.cls c) with
    | none => simp [Connection.getMetadata, hf] at h
    | some m2 =>
      simp only [Connection.getMetadata, hf, Except.ok.injEq] at h
      subst h
      have he := findMetadata_ok_elim ems (.cls c) _ hf
      exact ⟨he.1, (findMetadata_pred_cls _ c).mp he.2⟩
  · intro c
    constructor
    · intro h m hm he
      cases hf : Connection.findMetadata ems (.cls c) with
      | none =>
        exact ((findMetadata_none_iff ems (.cls c)).mp hf) m hm
          ((findMetadata_pred_cls m c).mpr he)
      | some m2 => simp [Connection.getMetadata, hf] at h
    · intro h
      have hf : Connection.findMetadata ems (.cls c) = none := by
        apply (findMetadata_none_iff ems (.cls c)).mpr
        intro m hm hp
        exact h m hm ((findMetadata_pred_cls m c).mp hp)
      simp [Connection.getMetadata, hf]
  · intro s m h
    cases hf : Connection.findMetadata ems (.str s) with
    | none => simp [Connection.getMetadata, hf] at h
    | some m2 =>
      simp only [Connection.getMetadata, hf, Except.ok.injEq] at h
      subst h
      have he := findMetadata_ok_elim ems (.str s) _ hf
      exact ⟨he.1, (findMetadata_pred_str _ s).mp he.2⟩
  · intro s
    constructor
    · intro h m hm he
      cases hf : Connection.findMetadata ems (.str s) with
      | none =>
        exact ((findMetadata_none_iff ems (.str s)).mp hf) m hm
          ((findMetadata_pred_str m s).mpr he)
      | some m2 => simp [Connection.getMetadata, hf] at h
    · intro h
      have hf : Connection.findMetadata ems (.str s) = none := by
        apply (findMetadata_none_iff ems (.str s)).mpr
        intro m hm hp
        exact h m hm ((findMetadata_pred_str m s).mp hp)
      simp [Connection.getMetadata, hf]

/-- Claim C8 (counterexample): a metadata whose string target itself
contains a dot is returned by identity although its table path differs
from the lookup string, so the claim that a dotted string resolves by
table path alone is false. -/
theorem getMetadata_string_identity_cex :
    Connection.getMetadata [dottedTargetMeta] (.str "a.b") = .ok dottedTargetMeta
    ∧ "a.b".data.contains '.' = true
    ∧ dottedTargetMeta.tablePath ≠ "a.b" := by
  refine ⟨rfl, by decide, by decide⟩

/-- Witness for claim C8: the class lookup over a one-element metadata list
returns a member with that class target. -/
theorem getMetadata_spec_witness :
    userMetaSample ∈ [userMetaSample]
      ∧ userMetaSample.target = .cls (JClass.base "User") :=
  (getMetadata_spec [userMetaSample]).1 (JClass.base "User") userMetaSample rfl

/-- Claim C1: wherever the primary-column invariant (primaryColumns is
exactly the isPrimary subset of columns, and hasMultiplePrimaryKeys says
whether more than one primary column exists) holds at every entity
metadata of the graph, it still holds at every entity metadata immediately
after any registerColumn call. -/
theorem registerColumn_primary_invariant (arena : List ColumnMetadata)
    (relArena : List RelationMetadata) (column : Nat) (t : EMTree)
    (h : primaryInvariantTree arena t = true) :
    primaryInvariantTree arena
      (EntityMetadata.registerColumn arena relArena column t) = true :=
  registerColumn_primaryInv_tree arena relArena column t h

/-- Witness for claim C1 on the concrete two-node tree. -/
theorem registerColumn_primary_invariant_witness :
    primaryInvariantTree sampleArena
      (EntityMetadata.registerColumn sampleArena [] 1 sampleTree) = true :=
  registerColumn_primary_invariant sampleArena [] 1 sampleTree (by decide)

/-- Claim C9: registering a column already owned leaves the metadata graph
unchanged; registering a fresh column appends it to the own columns of the
root, recomputes the derived column properties there, and propagates so
that the column index (the object identity) lies in the resolved columns
of the root and of every transitive child; stated under the subset and
hereditary invariants the graph maintains. -/
theorem registerColumn_idempotent_and_propagates (arena : List ColumnMetadata)
    (relArena : List RelationMetadata) (column : Nat) (t : EMTree)
    (hsub : ownSubsetColumnsTree t = true)
    (hher : hereditaryTree column t = true) :
    (column ∈ t.rootMeta.ownColumns →
        EntityMetadata.registerColumn arena relArena column t = t)
    ∧ (column ∉ t.rootMeta.ownColumns →
        (EntityMetadata.registerColumn arena relArena column t).rootMeta.ownColumns
            = t.rootMeta.ownColumns ++ [column]
          ∧ (EntityMetadata.registerColumn arena relArena column t).rootMeta.primaryInvariant
              arena = true
          ∧ containsColumnTree column
              (EntityMetadata.registerColumn arena relArena column t) = true) := by
  cases t with
  | node em children =>
    constructor
    · intro hc
      exact registerColumn_of_mem arena relArena column em children hc
    · intro hc
      refine ⟨registerColumn_rootMeta_ownColumns arena relArena column em children hc, ?_,
        registerColumn_contains_tree arena relArena column _ hsub hher⟩
      have hc2 : ¬ (em.ownColumns.contains column = true) := by
        simpa [EMTree.rootMeta] using hc
      simp only [EntityMetadata.registerColumn]
      rw [if_neg hc2]
      simp only [EMTree.rootMeta]
      exact primaryInvariant_recomputeDerived arena relArena _

/-- Witness for claim C9 on the concrete two-node tree: the fresh column 1
reaches the resolved columns of both nodes. -/
theorem registerColumn_idempotent_and_propagates_witness :
    containsColumnTree 1 (EntityMetadata.registerColumn sampleArena [] 1 sampleTree) = true :=
  ((registerColumn_idempotent_and_propagates sampleArena [] 1 sampleTree
    (by decide) (by decide)).2 (by decide)).2.2
